import Mathlib

/-!
Shallow embedding of the classifier-training pipeline of the repository
(file flow/classifier/train.py), together with proofs that settle the frozen
specification claims about it.

Modelling conventions
- Machine floats are modelled as rationals.  A float value that may be NaN is
  modelled as an Option value, with none standing for NaN; traces themselves
  are modelled as finite (NaN-free) matrices of rationals, which is the regime
  the value-level claims quantify over.
- A trace matrix (cells x frames) is a list of per-cell rows.  numpy arrays
  are rectangular, so all rows of a matrix share one length; the frame count
  read off by numpy as shape[1] is the length of the first row.
- Python exceptions are modelled with Except over an explicit error type.
  A Python local variable that may be used before assignment is modelled as an
  Option, reading it while unassigned produces the unboundLocal error.
- Randomness (np.random.choice) is modelled by passing the drawn index
  sequence as an explicit argument.
- Python dicts are modelled as insertion-ordered association lists.
- The Trace Source object returned by run.trace2p() is an external
  collaborator of this repository; it is modelled as a structure of opaque
  data fields matching the methods the embedded code calls.
-/

/-- Python exceptions that the embedded code can raise. -/
inductive PyErr where
  | unboundLocal : PyErr
  | keyError : String → PyErr
  | valueError : String → PyErr
  | typeError : String → PyErr
  | assertionError : PyErr
  | notImplementedError : PyErr
  deriving DecidableEq, Repr

deriving instance DecidableEq for Except

/-- A cells x frames matrix of finite float values. -/
abbrev Mat : Type := List (List ℚ)

/-- A single extracted window (a column slice of a trace matrix). -/
abbrev Win : Type := Mat

/-- A Python dict from class names to lists of windows, in insertion order. -/
abbrev Bucket : Type := List (String × List Win)

/-- Runs are identified by opaque ids; their data lives in an Env. -/
abbrev Run : Type := Nat

/-- Dates are identified by opaque ids. -/
abbrev Date : Type := Nat

/-- numpy shape[1] of a cells x frames matrix: the length of the first row
(matrices are rectangular, rows share one length; 0 for a rowless matrix). -/
def shape1 : Mat → Nat
  | [] => 0
  | r :: _ => r.length

/-- The column slice m[:, start:start+len] (Python slicing clips at the end). -/
def sliceCols (m : Mat) (start len : Nat) : Mat :=
  m.map fun r => (r.drop start).take len

/-- The list slice l[start:start+len]. -/
def listSlice (l : List Bool) (start len : Nat) : List Bool :=
  (l.drop start).take len

/-- Python substring test: needle in hay. -/
def containsStr (hay needle : String) : Bool :=
  decide (needle.toList <:+: hay.toList)

/-- dict lookup d[k] as an Option. -/
def dFind (d : Bucket) (k : String) : Option (List Win) :=
  (d.find? fun p => p.1 = k).map (·.2)

/-- Python k in d. -/
def dHas (d : Bucket) (k : String) : Bool :=
  d.any fun p => p.1 = k

/-- Python d[k] = v: replaces the value in place if the key exists (keeping
its position, as Python dicts do), otherwise appends the new key at the end. -/
def dSet (d : Bucket) (k : String) (v : List Win) : Bucket :=
  if dHas d k then d.map (fun p => if p.1 = k then (k, v) else p) else d ++ [(k, v)]

/-- Python d[k].append(w) where the key is known to be present; modelled as a
total update (the callers insert the key just before using this). -/
def dAppendTotal (d : Bucket) (k : String) (w : Win) : Bucket :=
  dSet d k ((dFind d k).getD [] ++ [w])

/-- Python d[k].append(w) in general: raises KeyError when k is absent. -/
def dAppend (d : Bucket) (k : String) (w : Win) : Except PyErr Bucket :=
  match dFind d k with
  | some v => .ok (dSet d k (v ++ [w]))
  | none => .error (.keyError k)

/-- Reading a Python local that may still be unassigned. -/
def oGet (o : Option Bucket) : Except PyErr Bucket :=
  match o with
  | some d => .ok d
  | none => .error .unboundLocal

/-- Mean of a list of finite floats; the mean of an empty list is NaN. -/
def meanQ (l : List ℚ) : Option ℚ :=
  if l.isEmpty then none else some (l.sum / l.length)

/-- Insertion sort, modelling np.sort on finite values. -/
def insertAsc (x : ℚ) : List ℚ → List ℚ
  | [] => [x]
  | y :: ys => if x ≤ y then x :: y :: ys else y :: insertAsc x ys

/-- np.sort for a 1-D array of finite values. -/
def npSort : List ℚ → List ℚ
  | [] => []
  | x :: xs => insertAsc x (npSort xs)

/-- np.median of a nonempty 1-D array of finite values: middle element of the
sorted array, or the mean of the two middle elements for even length. -/
def npMedian (l : List ℚ) : ℚ :=
  let s := npSort l
  let n := s.length
  if n % 2 = 1 then s.getD (n / 2) 0
  else (s.getD (n / 2 - 1) 0 + s.getD (n / 2) 0) / 2

/-- np.median where the input may be empty or contain NaN entries; the result
is NaN (none) in those cases. -/
def npMedianO (l : List (Option ℚ)) : Option ℚ :=
  if l.isEmpty || l.any (·.isNone) then none else some (npMedian (l.filterMap id))

/-- np.nanmedian: NaN entries are ignored; all-NaN or empty input gives NaN. -/
def npNanMedianO (l : List (Option ℚ)) : Option ℚ :=
  let fin := l.filterMap id
  if fin.isEmpty then none else some (npMedian fin)

/-- Mean squared deviation (the square of np.std before the square root). -/
def meanSqDev (l : List ℚ) : ℚ :=
  let m := l.sum / l.length
  (l.map fun x => (x - m) ^ 2).sum / l.length

/-- np.std of a 1-D array of finite values (NaN for the empty array).  The
floating-point square root is abstracted as the function argument sq. -/
def npStd (sq : ℚ → ℚ) (l : List ℚ) : Option ℚ :=
  if l.isEmpty then none else some (sq (meanSqDev l))

/-- np.std where entries may be NaN: any NaN entry (or emptiness) gives NaN. -/
def npStdO (sq : ℚ → ℚ) (l : List (Option ℚ)) : Option ℚ :=
  if l.isEmpty || l.any (·.isNone) then none else some (sq (meanSqDev (l.filterMap id)))

/-- Per-column nanmean of a matrix: column j averages the j-th entry of every
row that has one; a matrix with no rows has no columns (and the pooled uses
below treat both the 0-column and the all-NaN column cases as NaN). -/
def colNanMean (m : Mat) (j : Nat) : Option ℚ :=
  meanQ (m.filterMap fun r => r.get? j)

/-- nanmean over axis 0: one (possibly NaN) value per column. -/
def colNanMeans (m : Mat) : List (Option ℚ) :=
  (List.range (shape1 m)).map (colNanMean m)

/-- Boolean-mask column selection m[:, mask] (mask length equals the frame
count for the rectangular matrices the code feeds in). -/
def selectCols (m : Mat) (mask : List Bool) : Mat :=
  m.map fun r => (r.zip mask).filterMap fun p => if p.2 then some p.1 else none

/-- Boolean-mask row selection m[np.invert(flags), :]. -/
def selectRowsNot (m : Mat) (flags : List Bool) : Mat :=
  (m.zip flags).filterMap fun p => if p.2 then none else some p.1

/-- The Trace Source collaborator (run.trace2p() in the code): per-run data
behind the methods the embedded functions call.  It is external to this
repository, so its fields are unconstrained data. -/
structure Trace2P where
  /-- trace(trace_type): the cells x frames trace matrix of that type. -/
  trace : String → Mat
  /-- cses(): the stimulus class names present in the run. -/
  cses : List String
  /-- csonsets(cs, errortrials, lick_cutoff, lick_window): onset frames. -/
  csonsets : String → Int → Int → Int × Int → List Nat
  /-- csonsets(cs) with the default filters (call form used by _activity). -/
  csonsets1 : String → List Nat
  /-- nocs(length, pad, running_threshold): onsets of stimulus-free windows. -/
  nocs : Nat → Int × Int → ℚ → List Nat
  /-- speed(): running speed per frame (empty when unavailable). -/
  speed : List ℚ
  /-- lastonset(): frame of the final stimulus onset. -/
  lastonset : Nat
  /-- inactivity(): boolean mask of inactive frames. -/
  inactivity : List Bool
  /-- ncells. -/
  ncells : Nat
  /-- framerate. -/
  framerate : ℚ
  /-- trialmask(cs, errortrials, fulltrial, padpre, padpost). -/
  trialmask : String → Int → Bool → ℚ → ℚ → List Bool

/-- The world the embedded functions run in: metadata relations (from the
repository metadata component) and the Trace Source of every run. -/
structure Env where
  t2p : Run → Trace2P
  run_type : Run → String
  tags : Run → List String
  parent : Run → Date
  /-- date.runs(run_types, tags); none stands for the default tags argument. -/
  dateRuns : Date → List String → Option (List String) → List Run

/-! ## Windowing Extractor: _get_run_onsets and _get_traces (train.py) -/

/-- train._get_run_onsets: for every running-only run, slice the deconvolved
trace at every nocs onset shifted by offset_fr; no length check is applied to
the resulting windows. -/
def _get_run_onsets (env : Env) (runs : List Run) (length_fr : Nat)
    (pad_fr : Int × Int) (running_threshold_cms : ℚ) (offset_fr : Nat) : List Win :=
  runs.foldl (fun out run =>
    let t := env.t2p run
    let tr := t.trace "deconvolved"
    (t.nocs length_fr pad_fr running_threshold_cms).foldl
      (fun out ot => out ++ [sliceCols tr (ot + offset_fr) length_fr]) out) []

/-- Lookup in the all_cses remapping dict. -/
def aFind (d : List (String × String)) (k : String) : Option String :=
  (d.find? fun p => p.1 = k).map (·.2)

/-- nanmean(running[start:start+length]) > running_fraction, on a boolean
slice: the mean of an empty slice is NaN and the comparison is then False. -/
def runningFracExceeds (bs : List Bool) (frac : ℚ) : Bool :=
  !bs.isEmpty && decide (((bs.countP id : ℚ)) / bs.length > frac)

/-- Body of the per-onset stimulus loop (train.py lines 438-443): slice the
window at onset+offset and keep it only if it has exactly length_fr frames.
The key cs was inserted just before this loop, so the append is total. -/
def stimOnsetStep (trs : Mat) (offset_fr length_fr : Nat) (cs : String)
    (d : Bucket) (onset : Nat) : Bucket :=
  let start := onset + offset_fr
  let toappend := sliceCols trs start length_fr
  if shape1 toappend = length_fr then dAppendTotal d cs toappend else d

/-- Body of the per-class stimulus loop (train.py lines 425-443): remap the
class name, initialize its bucket, and collect full-length onset windows.
Reading the out dict fails if it was never initialized. -/
def stimCsStep (t : Trace2P) (trs : Mat) (all_cses : List (String × String))
    (correct_trials : Bool) (lick_cutoff : Int) (lick_window : Int × Int)
    (offset_fr length_fr : Nat) (o : Option Bucket) (ncs : String) :
    Except PyErr (Option Bucket) :=
  match aFind all_cses ncs with
  | none => .ok o
  | some cs => do
      let d ← oGet o
      let d := if dHas d cs then d else dSet d cs []
      let ons := t.csonsets ncs (if correct_trials then 0 else -1) lick_cutoff lick_window
      .ok (some (ons.foldl (stimOnsetStep trs offset_fr length_fr cs) d))

/-- Body of the per-onset "other" loop (train.py lines 453-461): route the
(unchecked) window to other-running or other by running fraction.  Both
appends raise KeyError when the target key is absent. -/
def othersOtStep (trs : Mat) (running : List Bool) (offset_fr length_fr : Nat)
    (running_fraction : ℚ) (o : Option Bucket) (ot : Nat) :
    Except PyErr (Option Bucket) := do
  let start := ot + offset_fr
  let d ← oGet o
  let d ← if runningFracExceeds (listSlice running start length_fr) running_fraction then
      dAppend d "other-running" (sliceCols trs start length_fr)
    else
      dAppend d "other" (sliceCols trs start length_fr)
  .ok (some d)

/-- Body of the per-training-run loop of _get_traces (train.py lines 415-461). -/
def trainRunStep (env : Env) (run : Run) (all_cses : List (String × String))
    (trace_type : String) (length_fr : Nat) (pad_fr : Int × Int) (offset_fr : Nat)
    (running_threshold_cms : ℚ) (correct_trials : Bool) (lick_cutoff : Int)
    (lick_window : Int × Int) (running_fraction : ℚ) (remove_stim : Bool)
    (o : Option Bucket) (training_run : Run) : Except PyErr (Option Bucket) := do
  let t := env.t2p training_run
  let trs := t.trace trace_type
  let o ← if remove_stim || training_run ≠ run then
      t.cses.foldlM
        (stimCsStep t trs all_cses correct_trials lick_cutoff lick_window offset_fr length_fr) o
    else .ok o
  if training_run ≠ run then
    let others := t.nocs length_fr pad_fr (-1)
    if t.speed.length > 0 then
      let running := t.speed.map fun s => decide (s > running_threshold_cms)
      others.foldlM (othersOtStep trs running offset_fr length_fr running_fraction) o
    else .ok o
  else .ok o

/-- True when all windows in the list share one (ncells, nframes) shape, so
that np.asarray of the list yields a single 3-D array. -/
def winShapesEqual (ws : List Win) : Bool :=
  match ws with
  | [] => true
  | w :: rest => rest.all fun v => v.length == w.length && shape1 v == shape1 w

/-- np.random.choice(a, k, replace=False) on a list of 2-D windows.  numpy
first converts a with np.asarray and requires the result to be 1-dimensional:
a list of equally-shaped 2-D windows becomes a 3-D array and raises
ValueError.  A list of unequally-shaped windows becomes (on the legacy numpy
this repository targets) a 1-D object array, from which k distinct positions
are drawn without replacement; the draw is the explicit argument sel. -/
def npRandomChoice (ws : List Win) (k : Nat) (sel : List Nat) : Except PyErr (List Win) :=
  if winShapesEqual ws then .error (.valueError "a must be 1-dimensional")
  else if sel.length = k ∧ sel.Nodup ∧ sel.all (· < ws.length) then
    .ok (sel.map fun i => ws.getD i [])
  else .error (.valueError "invalid draw")

/-- Body of the max_n_onsets capping loop (train.py lines 464-472): classes
whose name does not contain the substring other are subsampled via
np.random.choice when they hold more than max_n_onsets windows. -/
def capCsStep (max_n_onsets : Int) (choiceSel : String → List Nat)
    (d : Bucket) (cs : String) : Except PyErr Bucket :=
  if ¬ containsStr cs "other" then
    let v := (dFind d cs).getD []
    if (v.length : Int) > max_n_onsets then do
      let v2 ← npRandomChoice v max_n_onsets.toNat (choiceSel cs)
      .ok (dSet d cs v2)
    else .ok d
  else .ok d

/-- train._get_traces.  The out dict is assigned only when the target run is
not among the running runs (train.py line 404); every later access goes
through the possibly-unassigned local.  The final per-class np.array
conversion keeps the window lists themselves in this model. -/
def _get_traces (env : Env) (choiceSel : String → List Nat) (run : Run)
    (runs running_runs : List Run) (all_cses : List (String × String))
    (trace_type : String) (length_fr : Nat) (pad_fr : Int × Int) (offset_fr : Nat)
    (running_threshold_cms : ℚ) (correct_trials : Bool) (lick_cutoff : Int)
    (lick_window : Int × Int) (running_fraction : ℚ) (max_n_onsets : Int)
    (remove_stim : Bool) : Except PyErr Bucket := do
  let out0 : Option Bucket :=
    if run ∈ running_runs then none
    else some [("other-running",
      _get_run_onsets env running_runs length_fr pad_fr running_threshold_cms offset_fr)]
  let o ← runs.foldlM
    (trainRunStep env run all_cses trace_type length_fr pad_fr offset_fr
      running_threshold_cms correct_trials lick_cutoff lick_window
      running_fraction remove_stim) out0
  let d ← oGet o
  if max_n_onsets > 0 then
    (d.map (·.1)).foldlM (capCsStep max_n_onsets choiceSel) d
  else .ok d

/-! ## Temporal Prior Estimator: _activity (train.py lines 250-353) -/

/-- The run set _activity aggregates over for the two spontaneous branches
(train.py lines 277-282); none when the run is not a supported spontaneous
kind. -/
def spontRuns (env : Env) (run : Run) : Option (List Run) :=
  if env.run_type run = "spontaneous" ∧ "sated" ∈ env.tags run then
    some (env.dateRuns (env.parent run) ["spontaneous"] (some ["sated"]))
  else if env.run_type run = "spontaneous" ∧ "hungry" ∈ env.tags run then
    some (env.dateRuns (env.parent run) ["spontaneous"] (some ["hungry"]))
  else none

/-- mask[:fmin] = False on the inactivity mask. -/
def maskFromOnset (mask : List Bool) (fmin : Nat) : List Bool :=
  mask.mapIdx fun i b => if i < fmin then false else b

/-- The outlier flags of one spontaneous run (train.py lines 305-307):
cells whose mean activity after the last onset exceeds
nanmedian(cellact) + 2 * np.std(cellact); comparisons against NaN are False. -/
def outlierFlags (sq : ℚ → ℚ) (cellact : List (Option ℚ)) : List Bool :=
  let thresh : Option ℚ :=
    match npNanMedianO cellact, npStdO sq cellact with
    | some m, some s => some (m + 2 * s)
    | _, _ => none
  cellact.map fun c =>
    match c, thresh with
    | some c, some t => decide (c > t)
    | _, _ => false

/-- Body of the per-run spontaneous loop of _activity (train.py lines
293-312), accumulating (popact, outliers). -/
def spontStep (env : Env) (sq : ℚ → ℚ) (acc : Mat × List Bool) (r : Run) :
    Mat × List Bool :=
  let t := env.t2p r
  let pact := t.trace "deconvolved"
  let fmin := t.lastonset
  let mask := maskFromOnset t.inactivity fmin
  let cols := selectCols pact mask
  let popact := if acc.1.length > 0 then List.zipWith (· ++ ·) acc.1 cols else cols
  let trs := pact.map (List.drop fmin)
  let cellact := trs.map meanQ
  let outs := outlierFlags sq cellact
  let outliers := if acc.2.length = 0 then outs else List.zipWith (· || ·) acc.2 outs
  (popact, outliers)

/-- The pooled spontaneous activity and outlier mask after the loop. -/
def spontPool (env : Env) (sq : ℚ → ℚ) (rs : List Run) : Mat × List Bool :=
  rs.foldl (spontStep env sq) ([], [])

/-- Final scaling of an assigned (possibly NaN) baseline/variance pair
(train.py lines 350-351). -/
def scaleActivity (b v : Option ℚ) (baseline_activity baseline_sigma : ℚ) :
    Option ℚ × Option ℚ :=
  (b.map (· * baseline_activity), v.map (· * baseline_sigma))

/-- The spontaneous branch of _activity after the run loop (train.py lines
314-319 and 347-351): with a nonempty pool, baseline and variance are the
median and std of the per-frame mean activity of the non-outlier cells,
scaled; otherwise the fixed fallback values are used. -/
def spontResult (env : Env) (sq : ℚ → ℚ) (rs : List Run)
    (baseline_activity baseline_sigma : ℚ) :
    Option ℚ × Option ℚ × Option (List Bool) :=
  let pool := spontPool env sq rs
  if pool.1.length > 0 then
    let row := colNanMeans (selectRowsNot pool.1 pool.2)
    let (b, v) := scaleActivity (npMedianO row) (npStdO sq row)
      baseline_activity baseline_sigma
    (b, v, some pool.2)
  else
    (some (1 / 100), some (2 / 25 * baseline_sigma), some pool.2)

/-- Python int() truncation of a nonnegative float value. -/
def pyIntNonneg (q : ℚ) : Nat := (⌊q⌋).toNat

/-- pact[ons:ons+skip] = np.nan (train.py line 331). -/
def blankRange (p : List (Option ℚ)) (ons skip : Nat) : List (Option ℚ) :=
  p.mapIdx fun i v => if ons ≤ i ∧ i < ons + skip then none else v

/-- Body of the per-run training loop of _activity (train.py lines 322-332):
mean population activity per frame, with a 4-second window after every
stimulus onset blanked to NaN, then only the finite values pooled.  The
second component tracks the last assigned ncells. -/
def trainStep (env : Env) (acc : List ℚ × Option Nat) (r : Run) :
    List ℚ × Option Nat :=
  let t := env.t2p r
  let pact0 := colNanMeans (t.trace "deconvolved")
  let skip := pyIntNonneg (t.framerate * 4)
  let pact := ["plus*", "neutral*", "minus*", "pavlovian*"].foldl
    (fun p cs => (t.csonsets1 cs).foldl (fun p ons => blankRange p ons skip) p) pact0
  (acc.1 ++ pact.filterMap id, some t.ncells)

/-- The pooled training activity and last ncells after the loop. -/
def trainPool (env : Env) (rs : List Run) : List ℚ × Option Nat :=
  rs.foldl (trainStep env) ([], none)

/-- popact[trim:-trim] in Python: for trim = 0 the slice [0:-0] = [0:0] is
empty, otherwise trim entries are dropped from each end. -/
def trimBothEnds (l : List ℚ) (trim : Nat) : List ℚ :=
  if trim = 0 then [] else (l.drop trim).take (l.length - 2 * trim)

/-- The training branch of _activity after the run loop (train.py lines
334-351): sort the pool, trim the extreme 2 percent at each end, then take
median/std of the remainder, scaled; an empty pool falls back to the fixed
defaults and leaves the outlier mask unassigned (None). -/
def trainingResult (env : Env) (sq : ℚ → ℚ) (rs : List Run)
    (baseline_activity baseline_sigma : ℚ) :
    Except PyErr (Option ℚ × Option ℚ × Option (List Bool)) :=
  let pool := trainPool env rs
  if pool.1.length > 0 then
    let sorted := npSort pool.1
    let trim := pyIntNonneg (2 * (pool.1.length : ℚ) / 100)
    let trimmed := trimBothEnds sorted trim
    match pool.2 with
    | some n =>
        let (b, v) := scaleActivity (npMedianO (trimmed.map some))
          (npStdO sq (trimmed.map some)) baseline_activity baseline_sigma
        .ok (b, v, some (List.replicate n false))
    | none => .error .unboundLocal
  else
    .ok (some (1 / 100), some (2 / 25 * baseline_sigma), none)

/-- train._activity: dispatch on trace type and run kind, then compute the
baseline activity, its variance and the outlier-cell mask.  In the returned
triple none stands for Python None in the outlier component and for NaN in
the baseline/variance components. -/
def _activity (env : Env) (sq : ℚ → ℚ) (run : Run)
    (baseline_activity baseline_sigma : ℚ) (trace_type : String) :
    Except PyErr (Option ℚ × Option ℚ × Option (List Bool)) :=
  if trace_type ≠ "deconvolved" then
    .error (.valueError "Temporal classifier only implemented for deconvolved data.")
  else
    match spontRuns env run with
    | some rs => .ok (spontResult env sq rs baseline_activity baseline_sigma)
    | none =>
        if env.run_type run = "training" then
          trainingResult env sq (env.dateRuns (env.parent run) ["training"] none)
            baseline_activity baseline_sigma
        else
          .error (.valueError "Unknown run_type and tags, not sure how to calculate activity.")

/-! ## Inference Orchestrator: classify_reactivations (train.py lines 123-247) -/

/-- The classifier parameters classify_reactivations reads from the params
dict, as named fields (dict key names hyphenated in the code). -/
structure Params where
  /-- trace-type -/
  trace_type : String
  /-- remove-stim -/
  remove_stim : Bool
  /-- classification-ms -/
  classification_ms : ℚ
  /-- temporal-dependent-priors -/
  temporal_dependent_priors : Bool
  /-- temporal-prior-baseline-activity -/
  temporal_prior_baseline_activity : ℚ
  /-- temporal-prior-baseline-sigma -/
  temporal_prior_baseline_sigma : ℚ
  /-- temporal-prior-fwhm-frames -/
  temporal_prior_fwhm_frames : Nat
  /-- probability: per-class prior probabilities -/
  probability : List (String × ℚ)
  /-- analog-comparison-multiplier -/
  analog_comparison_multiplier : ℚ
  /-- classification-frames -/
  classification_frames : Nat
  deriving DecidableEq, Repr

/-- The trained AODE model (the aode module is an external collaborator not
under the embedded sources, so compare and marginal are opaque). -/
structure AODEModel (π δ Λ μ : Type) where
  classnames : List String
  /-- compare(full_traces, integrate_frames, priors) ->
  (results, data, likelihoods). -/
  compare : Mat → Nat → π → List (String × List ℚ) × δ × Λ
  marginal : μ

/-- The aode module functions classify_reactivations calls; external, hence
opaque function parameters.  π is the type of assigned frame priors. -/
structure AodeEnv (π : Type) where
  /-- aode.temporal_prior(traces, actmn, actvar, fwhm, stim_mask). -/
  temporal_prior : Mat → Option ℚ → Option ℚ → Nat → Option (List Bool) → List ℚ
  /-- aode.assign_temporal_priors(priors, tpriorvec, which). -/
  assign_temporal_priors : List (String × ℚ) → List ℚ → String → π

/-- The results bundle classify_reactivations returns. -/
structure ClassifyOut (π Λ μ : Type) where
  parameters : Params
  results : List (String × List ℚ)
  likelihood : Λ
  marginal : μ
  priors : π
  cell_mask : List Bool
  deriving DecidableEq

/-- Round a time in seconds up to a whole number of frames, in seconds
(np.ceil(x * framerate) / framerate). -/
def roundUpFrames (x fr : ℚ) : ℚ := (⌈x * fr⌉ : ℚ) / fr

/-- The stimulus-exclusion mask built by classify_reactivations when
remove-stim is set and no replacement data is supplied (train.py lines
175-192): (all_stim_mask | pav_mask) & ~blank_mask, where the all-trial mask
is padded by half the classification window on both sides and the pavlovian
and blank masks get an extra 0.5 s of post padding, all paddings rounded up
to whole frames.  Elementwise ops are over equal-length frame masks. -/
def stimMaskCode (t : Trace2P) (classification_ms : ℚ) : List Bool :=
  let pad_s := classification_ms / 1000 / 2
  let post_pad_s := 0 + pad_s
  let post_pav_pad_s := 1 / 2 + pad_s
  let pad_fr_s := roundUpFrames pad_s t.framerate
  let post_pad_fr_s := roundUpFrames post_pad_s t.framerate
  let post_pav_pad_fr_s := roundUpFrames post_pav_pad_s t.framerate
  let all_stim_mask := t.trialmask "" (-1) false pad_fr_s post_pad_fr_s
  let pav_mask := t.trialmask "pavlovian*" (-1) false pad_fr_s post_pav_pad_fr_s
  let blank_mask := t.trialmask "blank*" (-1) false pad_fr_s post_pav_pad_fr_s
  List.zipWith (· && ·) (List.zipWith (· || ·) all_stim_mask pav_mask)
    (blank_mask.map (! ·))

/-- Modelled from the spec: the stimulus-exclusion mask as claim C9 words it,
with every trial mask padded before and after by half the classification
window rounded up to whole frames. -/
def stimMaskClaimed (t : Trace2P) (classification_ms : ℚ) : List Bool :=
  let pad := roundUpFrames (classification_ms / 1000 / 2) t.framerate
  let all_stim_mask := t.trialmask "" (-1) false pad pad
  let pav_mask := t.trialmask "pavlovian*" (-1) false pad pad
  let blank_mask := t.trialmask "blank*" (-1) false pad pad
  List.zipWith (· && ·) (List.zipWith (· || ·) all_stim_mask pav_mask)
    (blank_mask.map (! ·))

/-- Modelled from the spec as amended: like stimMaskClaimed, except that the
post padding of the pavlovian and blank trial masks is half the
classification window plus 0.5 s, rounded up to whole frames. -/
def stimMaskAmended (t : Trace2P) (classification_ms : ℚ) : List Bool :=
  let halfWin := classification_ms / 2000
  let pre := (⌈halfWin * t.framerate⌉ : ℚ) / t.framerate
  let postAll := (⌈halfWin * t.framerate⌉ : ℚ) / t.framerate
  let postPav := (⌈(halfWin + 1 / 2) * t.framerate⌉ : ℚ) / t.framerate
  let all_stim_mask := t.trialmask "" (-1) false pre postAll
  let pav_mask := t.trialmask "pavlovian*" (-1) false pre postPav
  let blank_mask := t.trialmask "blank*" (-1) false pre postPav
  List.zipWith (· && ·) (List.zipWith (· || ·) all_stim_mask pav_mask)
    (blank_mask.map (! ·))

/-- np.bitwise_or(outliers, nan_cells) (train.py line 204).  The outlier
component of _activity may be Python None (TypeError) and must otherwise
have matching length (numpy scalar broadcasting is not modelled; the masks
the code combines share the cell axis). -/
def npBitwiseOrMask (outliers : Option (List Bool)) (nan_cells : List Bool) :
    Except PyErr (List Bool) :=
  match outliers with
  | none => .error (.typeError "unsupported operand type for bitwise or")
  | some o =>
      if o.length = nan_cells.length then .ok (List.zipWith (· || ·) o nan_cells)
      else .error (.valueError "operands could not be broadcast together")

/-- Series lookup in a results dict. -/
def rFind (d : List (String × List ℚ)) (k : String) : Option (List ℚ) :=
  (d.find? fun p => p.1 = k).map (·.2)

/-- Series update in a results dict, keeping the key position. -/
def rSet (d : List (String × List ℚ)) (k : String) (v : List ℚ) :
    List (String × List ℚ) :=
  if d.any fun p => p.1 = k then d.map (fun p => if p.1 = k then (k, v) else p)
  else d ++ [(k, v)]

/-- results.pop(k): drop the entry with key k. -/
def rPop (d : List (String × List ℚ)) (k : String) : List (String × List ℚ) :=
  d.eraseP fun p => p.1 = k

/-- Elementwise numpy addition of two per-frame series (the merged series are
aligned to one frame axis; scalar broadcasting is not modelled). -/
def npAddSeries (a b : List ℚ) : Except PyErr (List ℚ) :=
  if a.length = b.length then .ok (List.zipWith (· + ·) a b)
  else .error (.valueError "operands could not be broadcast together")

/-- One step of the merge loop (train.py lines 236-238):
results[merge1] += results[merge2]; results.pop(merge2). -/
def mergeStep (merge1 : String) (res : List (String × List ℚ)) (merge2 : String) :
    Except PyErr (List (String × List ℚ)) := do
  let a ← match rFind res merge1 with
    | some a => .ok a
    | none => .error (.keyError merge1)
  let b ← match rFind res merge2 with
    | some b => .ok b
    | none => .error (.keyError merge2)
  let s ← npAddSeries a b
  .ok (rPop (rSet res merge1 s) merge2)

/-- The optional class merge of classify_reactivations (train.py lines
233-238): every class after the first in merge_cses is summed into the first
and removed. -/
def mergeResults (merge_cses : List String) (res : List (String × List ℚ)) :
    Except PyErr (List (String × List ℚ)) :=
  match merge_cses with
  | [] => .ok res
  | m1 :: rest => rest.foldlM (mergeStep m1) res

/-- The front of classify_reactivations (train.py lines 159-229): resolve
traces, NaN cells and priors, build the stimulus mask, compute the temporal
prior, clip the comparison trace and resolve the integration window.  It
returns the arguments handed to model.compare together with the resolved
NaN-cell mask. -/
def classifyFront {π : Type} (env : Env) (ao : AodeEnv π) (sq : ℚ → ℚ)
    (run : Run) (classnames : List String) (params : Params)
    (nan_cells : Option (List Bool)) (replace_data : Option Mat)
    (replace_priors : Option (List (String × ℚ)))
    (replace_temporal_prior : Option (List ℚ))
    (replace_integrate_frames : Option Nat) :
    Except PyErr (Mat × Nat × π × List Bool) := do
  let full_traces := match replace_data with
    | some d => d
    | none => (env.t2p run).trace params.trace_type
  -- np.any of non-finiteness is all-False on the finite traces modelled here
  let nan_cells := match nan_cells with
    | some m => m
    | none => full_traces.map fun _ => false
  let priors ← match replace_priors with
    | some p => .ok p
    | none => classnames.foldlM (fun acc cs =>
        match (params.probability.find? fun p => p.1 = cs).map (·.2) with
        | some v => .ok (acc ++ [(cs, v)])
        | none => .error (.keyError cs)) ([] : List (String × ℚ))
  let stim_mask : Option (List Bool) :=
    if params.remove_stim && replace_data.isNone then
      some (stimMaskCode (env.t2p run) params.classification_ms)
    else none
  let used_priors ←
    if params.temporal_dependent_priors && replace_temporal_prior.isNone then do
      let bvo ← _activity env sq run params.temporal_prior_baseline_activity
        params.temporal_prior_baseline_sigma params.trace_type
      let outliers ← npBitwiseOrMask bvo.2.2 nan_cells
      let tpriorvec := ao.temporal_prior (selectRowsNot full_traces outliers)
        bvo.1 bvo.2.1 params.temporal_prior_fwhm_frames stim_mask
      .ok (ao.assign_temporal_priors priors tpriorvec "other")
    else if params.temporal_dependent_priors then
      .ok (ao.assign_temporal_priors priors (replace_temporal_prior.getD []) "other")
    else
      -- np.ones over the frame axis, zeroed inside the stimulus mask
      let tpriorvec := List.replicate (shape1 full_traces) (1 : ℚ)
      let tpriorvec := match stim_mask with
        | some m => List.zipWith (fun b x => if b then (0 : ℚ) else x) m tpriorvec
        | none => tpriorvec
      .ok (ao.assign_temporal_priors priors tpriorvec "other")
  let full_traces := full_traces.map fun r => r.map fun x =>
    min (max (x * params.analog_comparison_multiplier) 0) 1
  let integrate_frames := match replace_integrate_frames with
    | some n => n
    | none => params.classification_frames
  .ok (full_traces, integrate_frames, used_priors, nan_cells)

/-- train.classify_reactivations: run the front, hand the clipped traces,
integration window and priors to model.compare, merge the requested classes
and assemble the results bundle. -/
def classify_reactivations {π δ Λ μ : Type} (env : Env) (ao : AodeEnv π)
    (sq : ℚ → ℚ) (run : Run) (model : AODEModel π δ Λ μ) (params : Params)
    (nan_cells : Option (List Bool)) (merge_cses : Option (List String))
    (replace_data : Option Mat) (replace_priors : Option (List (String × ℚ)))
    (replace_temporal_prior : Option (List ℚ))
    (replace_integrate_frames : Option Nat) :
    Except PyErr (ClassifyOut π Λ μ) := do
  let merge := merge_cses.getD []
  let front ← classifyFront env ao sq run model.classnames params nan_cells
    replace_data replace_priors replace_temporal_prior replace_integrate_frames
  let cmp := model.compare front.1 front.2.1 front.2.2.1
  let results ← mergeResults merge cmp.1
  .ok { parameters := params, results := results, likelihood := cmp.2.2,
        marginal := model.marginal, priors := front.2.2.1,
        cell_mask := front.2.2.2.map (! ·) }

/-! ## Training Orchestrator: train_classifier (train.py lines 12-120) -/

/-- train.train_classifier up to and including run-set resolution (train.py
lines 48-69).  The remainder of the function (parameter defaults and
overrides, frame conversion, _get_traces, aode training, provenance) is
abstracted as the continuation rest, applied to the resolved training date
and run sets; the claims settled about train_classifier concern only the
checks that precede any data extraction.  Python assert failures are
AssertionError. -/
def train_classifier {α : Type} (env : Env) (run : Run)
    (training_runs running_runs : Option (List Run)) (training_date : Option Date)
    (rest : Date → List Run → List Run → α) : Except PyErr α := do
  let td ← match training_date with
    | none => .ok (env.parent run)
    | some d => if d ≠ env.parent run then .error .notImplementedError else .ok d
  let truns ← match training_runs with
    | none => .ok (env.dateRuns td ["training"] (some ["hungry"]))
    | some rs =>
        if rs.all fun r => env.parent r == td then .ok rs else .error .assertionError
  let rruns ← match running_runs with
    | none => .ok (env.dateRuns td ["running"] (some ["hungry"]))
    | some rs =>
        if rs.all fun r => env.parent r == td then .ok rs else .error .assertionError
  .ok (rest td truns rruns)

/-! ## Concrete environments used by witnesses and counterexamples -/

/-- A trivial Trace Source with no data. -/
def trivT2P : Trace2P where
  trace := fun _ => []
  cses := []
  csonsets := fun _ _ _ _ => []
  csonsets1 := fun _ => []
  nocs := fun _ _ _ => []
  speed := []
  lastonset := 0
  inactivity := []
  ncells := 0
  framerate := 1
  trialmask := fun _ _ _ _ _ => []

/-- An environment of runs of type running with no data. -/
def envRunning : Env where
  t2p := fun _ => trivT2P
  run_type := fun _ => "running"
  tags := fun _ => []
  parent := fun _ => 0
  dateRuns := fun _ _ _ => []

/-! ## C10: supplying a different training_date raises NotImplementedError -/

/-- C10: whenever training_date is supplied and differs from the parent date
of the target run, train_classifier fails with NotImplementedError before
resolving any run set or extracting any data (the continuation and the whole
environment are arbitrary, so nothing downstream is consulted). -/
theorem c10_training_date_not_implemented {α : Type} (env : Env) (run : Run)
    (training_runs running_runs : Option (List Run)) (d : Date)
    (rest : Date → List Run → List Run → α) (hne : d ≠ env.parent run) :
    train_classifier env run training_runs running_runs (some d) rest =
      .error .notImplementedError := by
  simp [train_classifier, hne, Bind.bind, Except.bind]

/-- Witness for C10 at a concrete input. -/
theorem c10_witness :
    train_classifier envRunning 0 none none (some 1) (fun _ _ _ => (0 : Nat)) =
      .error .notImplementedError :=
  c10_training_date_not_implemented envRunning 0 none none 1 _ (by decide)

/-! ## C5: mismatched supplied runs raise MismatchedParentError (assert) -/

/-- C5: when the training date resolves (it is either omitted or equal to the
target run parent), any explicitly supplied training or running run whose
parent differs from the resolved date makes train_classifier fail with the
assertion (MismatchedParentError), for every continuation, hence before any
data extraction. -/
theorem c5_mismatched_parent {α : Type} (env : Env) (run : Run)
    (training_runs running_runs : Option (List Run)) (training_date : Option Date)
    (rest : Date → List Run → List Run → α)
    (htd : training_date = none ∨ training_date = some (env.parent run))
    (hbad : (∃ ts, training_runs = some ts ∧ ∃ r ∈ ts, env.parent r ≠ env.parent run) ∨
            (∃ rs, running_runs = some rs ∧ ∃ r ∈ rs, env.parent r ≠ env.parent run)) :
    train_classifier env run training_runs running_runs training_date rest =
      .error .assertionError := by
  rcases htd with h | h <;> subst h <;>
  · rcases hbad with ⟨ts, hts, r, hr, hne⟩ | ⟨rs, hrs, r, hr, hne⟩
    · subst hts
      have hb : ¬ ∀ x ∈ ts, env.parent x = env.parent run := fun hf => hne (hf r hr)
      simp [train_classifier, hb, Bind.bind, Except.bind]
    · subst hrs
      have hb : ¬ ∀ x ∈ rs, env.parent x = env.parent run := fun hf => hne (hf r hr)
      rcases training_runs with _ | ts
      · simp [train_classifier, hb, Bind.bind, Except.bind]
      · by_cases hok : ∀ x ∈ ts, env.parent x = env.parent run
        · simp [train_classifier, hok, hb, Bind.bind, Except.bind]
        · simp [train_classifier, hok, Bind.bind, Except.bind]

/-- An environment where the parent date of a run is the run id itself. -/
def envParents : Env := { envRunning with parent := fun r => r }

/-- Witness for C5: a supplied training run on a different date. -/
theorem c5_witness :
    train_classifier envParents 0 (some [3]) none none (fun _ _ _ => (0 : Nat)) =
      .error .assertionError := by
  have h := c5_mismatched_parent (α := Nat) envParents 0 (some [3]) none none
    (fun _ _ _ => 0) (Or.inl rfl) (Or.inl ⟨[3], rfl, 3, by decide, by decide⟩)
  exact h

/-! ## C4: unsupported run kinds fail in _activity -/

/-- C4: with the deconvolved trace type, _activity fails with the
unsupported-run-kind ValueError for every run whose type/tag combination is
neither spontaneous+sated, spontaneous+hungry nor training. -/
theorem c4_unsupported_run_kind (env : Env) (sq : ℚ → ℚ) (run : Run) (act σ : ℚ)
    (hns : ¬ (env.run_type run = "spontaneous" ∧ "sated" ∈ env.tags run))
    (hnh : ¬ (env.run_type run = "spontaneous" ∧ "hungry" ∈ env.tags run))
    (hnt : env.run_type run ≠ "training") :
    _activity env sq run act σ "deconvolved" =
      .error (.valueError
        "Unknown run_type and tags, not sure how to calculate activity.") := by
  simp [_activity, spontRuns, hns, hnh, hnt]

/-- Witness for C4: a running-type run. -/
theorem c4_witness :
    _activity envRunning (fun _ => 0) 0 0 3 "deconvolved" =
      .error (.valueError
        "Unknown run_type and tags, not sure how to calculate activity.") :=
  c4_unsupported_run_kind envRunning (fun _ => 0) 0 0 3
    (by simp [envRunning]) (by simp [envRunning]) (by simp [envRunning])

/-! ## C7: empty pooled activity gives the fixed fallback values -/

/-- C7: when the pooled activity of _activity is empty (no valid pooled
activity exists), the returned baseline is the fixed 0.01 and the returned
variance is 0.08 times the sigma scale factor, in both the spontaneous and
the training branch. -/
theorem c7_empty_pool_fallback (env : Env) (sq : ℚ → ℚ) (run : Run) (act σ : ℚ)
    (h : (∃ rs, spontRuns env run = some rs ∧ (spontPool env sq rs).1.length = 0) ∨
         (spontRuns env run = none ∧ env.run_type run = "training" ∧
           (trainPool env (env.dateRuns (env.parent run) ["training"] none)).1.length
             = 0)) :
    Except.map (fun t => (t.1, t.2.1)) (_activity env sq run act σ "deconvolved") =
      .ok (some (1 / 100), some (2 / 25 * σ)) := by
  rcases h with ⟨rs, hrs, hlen⟩ | ⟨hn, ht, hlen⟩
  · simp [_activity, hrs, spontResult, hlen, Except.map]
  · simp [_activity, hn, ht, trainingResult, hlen, Except.map]

/-- An environment whose single run is spontaneous and sated but whose date
holds no runs at all. -/
def envSpontEmpty : Env :=
  { envRunning with run_type := fun _ => "spontaneous", tags := fun _ => ["sated"] }

/-- Witness for C7: a spontaneous run over an empty run list. -/
theorem c7_witness :
    Except.map (fun t => (t.1, t.2.1))
      (_activity envSpontEmpty (fun _ => 0) 0 0 3 "deconvolved") =
      .ok (some (1 / 100), some (2 / 25 * 3)) :=
  c7_empty_pool_fallback envSpontEmpty (fun _ => 0) 0 0 3
    (Or.inl ⟨[], by simp [envSpontEmpty, envRunning, spontRuns], by decide⟩)

/-! ## C9: the stimulus-exclusion mask built by classify_reactivations -/

/-- C9 (amended): the stimulus-exclusion mask classify_reactivations builds
when remove-stim is set and no replacement data is supplied equals the
spec-modelled mask in which every trial mask is pre-padded by half the
classification window, the all-trial mask is post-padded by half the window,
and the pavlovian and blank masks are post-padded by half the window plus
0.5 seconds, all paddings rounded up to whole frames. -/
theorem c9_amended_stim_mask (t : Trace2P) (classification_ms : ℚ) :
    stimMaskCode t classification_ms = stimMaskAmended t classification_ms := by
  have h1 : classification_ms / 1000 / 2 = classification_ms / 2000 := by ring
  have h2 : (0 : ℚ) + classification_ms / 2000 = classification_ms / 2000 := by ring
  have h3 : (1 : ℚ) / 2 + classification_ms / 2000 =
      classification_ms / 2000 + 1 / 2 := by ring
  simp only [stimMaskCode, stimMaskAmended, roundUpFrames, h1, h2, h3]

/-- A Trace Source whose pavlovian trial mask depends on the post padding. -/
def t2pC9 : Trace2P :=
  { trivT2P with
    framerate := 1
    trialmask := fun cs _ _ _ padpost =>
      if cs = "pavlovian*" then [decide (2 ≤ padpost)] else [false] }

/-- Counterexample for C9 as stated: with a 2000 ms classification window at
framerate 1, the code post-pads the pavlovian mask by 2 s (half the window
plus 0.5 s, rounded up) while the claim pads it by 1 s (half the window), and
the resulting masks differ. -/
theorem c9_counterexample :
    stimMaskCode t2pC9 2000 = [true] ∧ stimMaskClaimed t2pC9 2000 = [false] := by
  have hb : "blank*" ≠ "pavlovian*" := by decide
  have hc2 : (⌈(3 : ℚ) / 2⌉ : ℤ) = 2 := by rw [Int.ceil_eq_iff]; norm_num
  have hc1a : (⌈(1 : ℚ)⌉ : ℤ) = 1 := by rw [Int.ceil_eq_iff]; norm_num
  have hc : ((⌈(3 : ℚ) / 2⌉ : ℤ) : ℚ) = 2 := by rw [hc2]; norm_num
  have hc1 : ((⌈(1 : ℚ)⌉ : ℤ) : ℚ) = 1 := by rw [hc1a]; norm_num
  constructor <;>
  · simp only [stimMaskCode, stimMaskClaimed, t2pC9, trivT2P, roundUpFrames]
    norm_num [hb, hc, hc1]

/-! ## C3: a target run among the running runs crashes _get_traces -/

/-- The per-class stimulus step leaves an unassigned out dict unassigned or
fails on it with the unbound-local error. -/
theorem stimCsStep_on_none (t : Trace2P) (trs : Mat)
    (all_cses : List (String × String)) (ct : Bool) (lc : Int) (lw : Int × Int)
    (off len : Nat) (ncs : String) :
    stimCsStep t trs all_cses ct lc lw off len none ncs = .ok none ∨
    stimCsStep t trs all_cses ct lc lw off len none ncs =
      .error .unboundLocal := by
  unfold stimCsStep
  cases h : aFind all_cses ncs
  · exact Or.inl rfl
  · exact Or.inr rfl

/-- The per-onset other step always fails on an unassigned out dict. -/
theorem othersOtStep_on_none (trs : Mat) (running : List Bool) (off len : Nat)
    (rf : ℚ) (ot : Nat) :
    othersOtStep trs running off len rf none ot = .error .unboundLocal := rfl

/-- A monadic fold whose steps keep an unassigned dict unassigned (or fail on
it with the unbound-local error) does the same. -/
theorem foldlM_on_none {α : Type}
    (f : Option Bucket → α → Except PyErr (Option Bucket))
    (hf : ∀ a, f none a = .ok none ∨ f none a = .error .unboundLocal) :
    ∀ l : List α,
      l.foldlM f none = .ok none ∨ l.foldlM f none = .error .unboundLocal := by
  intro l
  induction l with
  | nil => exact Or.inl rfl
  | cons a l ih =>
      rw [List.foldlM_cons]
      rcases hf a with h | h
      · rw [h]
        simpa [Bind.bind, Except.bind] using ih
      · rw [h]
        exact Or.inr rfl

/-- The per-training-run step leaves an unassigned out dict unassigned or
fails on it with the unbound-local error. -/
theorem trainRunStep_on_none (env : Env) (run : Run)
    (all_cses : List (String × String)) (tt : String) (len : Nat)
    (pad : Int × Int) (off : Nat) (thr : ℚ) (ct : Bool) (lc : Int)
    (lw : Int × Int) (rf : ℚ) (rs : Bool) (tr : Run) :
    trainRunStep env run all_cses tt len pad off thr ct lc lw rf rs none tr =
      .ok none ∨
    trainRunStep env run all_cses tt len pad off thr ct lc lw rf rs none tr =
      .error .unboundLocal := by
  unfold trainRunStep
  have hstim := foldlM_on_none _
    (stimCsStep_on_none (env.t2p tr) ((env.t2p tr).trace tt) all_cses ct lc lw off len)
    (env.t2p tr).cses
  have hoth := foldlM_on_none _
    (fun ot => Or.inr (othersOtStep_on_none ((env.t2p tr).trace tt)
      ((env.t2p tr).speed.map fun s => decide (s > thr)) off len rf ot))
    ((env.t2p tr).nocs len pad (-1))
  simp only [Bind.bind, Except.bind]
  split
  · rcases hstim with h | h
    · simp only [h]
      split
      · split
        · exact hoth
        · exact Or.inl rfl
      · exact Or.inl rfl
    · simp only [h]
      exact Or.inr trivial
  · split
    · split
      · exact hoth
      · exact Or.inl rfl
    · exact Or.inl rfl

/-- C3 (the code): whenever the target run is a member of running_runs, the
out dict of _get_traces is never initialized and the extraction fails with
the unbound-local error instead of returning any bucket at all (in
particular the running-run pass over running_runs is skipped in exactly this
case). -/
theorem c3_target_in_running_runs_crashes (env : Env)
    (choiceSel : String → List Nat) (run : Run) (runs running_runs : List Run)
    (all_cses : List (String × String)) (tt : String) (len : Nat)
    (pad : Int × Int) (off : Nat) (thr : ℚ) (ct : Bool) (lc : Int)
    (lw : Int × Int) (rf : ℚ) (mno : Int) (rs : Bool)
    (hmem : run ∈ running_runs) :
    _get_traces env choiceSel run runs running_runs all_cses tt len pad off thr
      ct lc lw rf mno rs = .error .unboundLocal := by
  unfold _get_traces
  rw [if_pos hmem]
  rcases foldlM_on_none _
      (trainRunStep_on_none env run all_cses tt len pad off thr ct lc lw rf rs)
      runs with h | h <;>
    simp [h, oGet, Bind.bind, Except.bind]

/-- Witness for C3 at a concrete input. -/
theorem c3_witness :
    _get_traces envRunning (fun _ => []) 0 [1] [0] [] "deconvolved" 15 (31, 31)
      1 4 false (-1) (-1, 0) (3 / 10) (-1) true = .error .unboundLocal :=
  c3_target_in_running_runs_crashes envRunning (fun _ => []) 0 [1] [0] []
    "deconvolved" 15 (31, 31) 1 4 false (-1) (-1, 0) (3 / 10) (-1) true
    (by decide)

/-! ## C2: the max_n_onsets cap crashes instead of subsampling -/

/-- A training run with one cell, four frames, one stimulus class with two
onsets, and no running data. -/
def t2pC2 : Trace2P :=
  { trivT2P with
    trace := fun _ => [[1, 2, 3, 4]]
    cses := ["plus"]
    csonsets := fun _ _ _ _ => [0, 1] }

/-- An environment holding the training run 1 (the target run 0 is empty). -/
def envC2 : Env := { envRunning with t2p := fun r => if r = 1 then t2pC2 else trivT2P }

/-- C2 (the code): at a concrete input with max_n_onsets = 1 and a class
holding two equally-shaped full-length windows, the cap calls
np.random.choice on a list whose np.asarray is 3-D, so _get_traces raises
ValueError instead of subsampling the bucket. -/
theorem c2_cap_raises_valueerror :
    _get_traces envC2 (fun _ => []) 0 [1] [] [("plus", "plus")] "deconvolved" 2
      (31, 31) 0 4 false (-1) (-1, 0) (3 / 10) 1 true =
      .error (.valueError "a must be 1-dimensional") := by
  decide

/-! ## C1: window lengths in the buckets of _get_traces -/

/-- A window is admissible for class cs at target length L: never longer
than L, and exactly L for classes whose name does not contain other. -/
def goodWin (L : Nat) (cs : String) (w : Win) : Prop :=
  shape1 w ≤ L ∧ (¬ containsStr cs "other" → shape1 w = L)

/-- Every window of every class of the bucket is admissible. -/
def GoodB (L : Nat) (d : Bucket) : Prop :=
  ∀ p ∈ d, ∀ w ∈ p.2, goodWin L p.1 w

/-- GoodB holds of whatever the possibly-unassigned out dict holds. -/
def InvO (L : Nat) (o : Option Bucket) : Prop :=
  ∀ d, o = some d → GoodB L d

theorem shape1_sliceCols_le (m : Mat) (s L : Nat) : shape1 (sliceCols m s L) ≤ L := by
  cases m with
  | nil => simp [sliceCols, shape1]
  | cons r rs =>
      simp only [sliceCols, List.map_cons, shape1]
      rw [List.length_take]
      exact min_le_left _ _

theorem foldl_preserve {α β : Type} (P : β → Prop) (f : β → α → β)
    (hf : ∀ b a, P b → P (f b a)) :
    ∀ (l : List α) (b : β), P b → P (l.foldl f b) := by
  intro l
  induction l with
  | nil => intro b hb; exact hb
  | cons a l ih =>
      intro b hb
      rw [List.foldl_cons]
      exact ih _ (hf b a hb)

theorem foldlM_ok_preserve {ε α β : Type} (P : β → Prop) (f : β → α → Except ε β)
    (hf : ∀ b a b2, P b → f b a = .ok b2 → P b2) :
    ∀ (l : List α) (b b2 : β), P b → l.foldlM f b = .ok b2 → P b2 := by
  intro l
  induction l with
  | nil =>
      intro b b2 hb h
      rw [List.foldlM_nil] at h
      cases h
      exact hb
  | cons a l ih =>
      intro b b2 hb h
      rw [List.foldlM_cons] at h
      cases hfa : f b a with
      | error e =>
          rw [hfa] at h
          exact Except.noConfusion h
      | ok b1 =>
          rw [hfa] at h
          simp only [Bind.bind, Except.bind] at h
          exact ih b1 b2 (hf b a b1 hb hfa) h

/-- Every window _get_run_onsets returns has at most length_fr frames (it is
an unchecked slice, so it can be shorter). -/
theorem shape1_get_run_onsets_le (env : Env) (runs : List Run) (L : Nat)
    (pad : Int × Int) (thr : ℚ) (off : Nat) :
    ∀ w ∈ _get_run_onsets env runs L pad thr off, shape1 w ≤ L := by
  unfold _get_run_onsets
  refine foldl_preserve (fun out => ∀ w ∈ out, shape1 w ≤ L) _ ?_ runs [] (by simp)
  intro out r hout
  refine foldl_preserve (fun out => ∀ w ∈ out, shape1 w ≤ L) _ ?_ _ out hout
  intro out2 ot hout2 w hw
  rcases List.mem_append.mp hw with h | h
  · exact hout2 w h
  · rw [List.mem_singleton] at h
    subst h
    exact shape1_sliceCols_le _ _ _

theorem containsStr_other_self : containsStr "other" "other" = true := by decide

theorem containsStr_other_running : containsStr "other-running" "other" = true := by
  decide

theorem dFind_goodWin {L : Nat} {d : Bucket} {k : String} {v : List Win}
    (h : GoodB L d) (hf : dFind d k = some v) : ∀ w ∈ v, goodWin L k w := by
  unfold dFind at hf
  cases hq : d.find? fun p => decide (p.1 = k) with
  | none => rw [hq] at hf; exact Option.noConfusion hf
  | some q =>
      rw [hq] at hf
      have hk : q.1 = k := by
        have hp := List.find?_some hq
        simpa using hp
      have hm : q ∈ d := List.mem_of_find?_eq_some hq
      have hgood := h q hm
      simp only [Option.map] at hf
      cases hf
      rw [← hk]
      exact hgood

theorem GoodB_dSet {L : Nat} {d : Bucket} {k : String} {v : List Win}
    (h : GoodB L d) (hv : ∀ w ∈ v, goodWin L k w) : GoodB L (dSet d k v) := by
  unfold dSet
  split
  · intro p hp
    rcases List.mem_map.mp hp with ⟨q, hq, hpq⟩
    by_cases hk : q.1 = k
    · rw [if_pos hk] at hpq
      subst hpq
      exact hv
    · rw [if_neg hk] at hpq
      subst hpq
      exact h q hq
  · intro p hp
    rcases List.mem_append.mp hp with hin | hin
    · exact h p hin
    · rw [List.mem_singleton] at hin
      subst hin
      exact hv

theorem GoodB_dAppendTotal {L : Nat} {d : Bucket} {k : String} {w : Win}
    (h : GoodB L d) (hw : goodWin L k w) : GoodB L (dAppendTotal d k w) := by
  unfold dAppendTotal
  apply GoodB_dSet h
  intro w2 hw2
  rcases List.mem_append.mp hw2 with hin | hin
  · cases hf : dFind d k with
    | none => rw [hf] at hin; simp at hin
    | some v =>
        rw [hf] at hin
        exact dFind_goodWin h hf w2 hin
  · rw [List.mem_singleton] at hin
    subst hin
    exact hw

theorem GoodB_dAppend {L : Nat} {d d2 : Bucket} {k : String} {w : Win}
    (h : GoodB L d) (hw : goodWin L k w) (hok : dAppend d k w = .ok d2) :
    GoodB L d2 := by
  unfold dAppend at hok
  cases hf : dFind d k with
  | none => rw [hf] at hok; exact Except.noConfusion hok
  | some v =>
      rw [hf] at hok
      cases hok
      apply GoodB_dSet h
      intro w2 hw2
      rcases List.mem_append.mp hw2 with hin | hin
      · exact dFind_goodWin h hf w2 hin
      · rw [List.mem_singleton] at hin
        subst hin
        exact hw

theorem stimOnsetStep_good {L : Nat} {trs : Mat} {off : Nat} {cs : String}
    {d : Bucket} (onset : Nat) (h : GoodB L d) :
    GoodB L (stimOnsetStep trs off L cs d onset) := by
  simp only [stimOnsetStep]
  split
  · next heq =>
      exact GoodB_dAppendTotal h ⟨le_of_eq heq, fun _ => heq⟩
  · exact h

theorem stimCsStep_inv {L : Nat} {t : Trace2P} {trs : Mat}
    {all_cses : List (String × String)} {ct : Bool} {lc : Int} {lw : Int × Int}
    {off : Nat} {o o2 : Option Bucket} {ncs : String} (hInv : InvO L o)
    (hok : stimCsStep t trs all_cses ct lc lw off L o ncs = .ok o2) :
    InvO L o2 := by
  simp only [stimCsStep] at hok
  cases ha : aFind all_cses ncs with
  | none =>
      rw [ha] at hok
      cases hok
      exact hInv
  | some cs =>
      rw [ha] at hok
      cases o with
      | none => exact Except.noConfusion hok
      | some d =>
          simp only [oGet, Bind.bind, Except.bind] at hok
          cases hok
          intro d2 hd2
          cases hd2
          refine foldl_preserve (GoodB L) _ (fun b a hb => stimOnsetStep_good a hb) _ _ ?_
          split
          · exact hInv d rfl
          · exact GoodB_dSet (hInv d rfl) (by simp)

theorem othersOtStep_inv {L : Nat} {trs : Mat} {running : List Bool} {off : Nat}
    {rf : ℚ} {o o2 : Option Bucket} {ot : Nat} (hInv : InvO L o)
    (hok : othersOtStep trs running off L rf o ot = .ok o2) : InvO L o2 := by
  simp only [othersOtStep] at hok
  cases o with
  | none => exact Except.noConfusion hok
  | some d =>
      simp only [oGet, Bind.bind, Except.bind] at hok
      split at hok
      · cases hap : dAppend d "other-running" (sliceCols trs (ot + off) L) with
        | error e => rw [hap] at hok; exact Except.noConfusion hok
        | ok d2 =>
            rw [hap] at hok
            cases hok
            intro d3 hd3
            cases hd3
            exact GoodB_dAppend (hInv d rfl)
              ⟨shape1_sliceCols_le _ _ _,
                fun hc => (hc containsStr_other_running).elim⟩ hap
      · cases hap : dAppend d "other" (sliceCols trs (ot + off) L) with
        | error e => rw [hap] at hok; exact Except.noConfusion hok
        | ok d2 =>
            rw [hap] at hok
            cases hok
            intro d3 hd3
            cases hd3
            exact GoodB_dAppend (hInv d rfl)
              ⟨shape1_sliceCols_le _ _ _,
                fun hc => (hc containsStr_other_self).elim⟩ hap

theorem trainRunStep_inv {L : Nat} {env : Env} {run : Run}
    {all_cses : List (String × String)} {tt : String} {pad : Int × Int}
    {off : Nat} {thr : ℚ} {ct : Bool} {lc : Int} {lw : Int × Int} {rf : ℚ}
    {rs : Bool} {o o2 : Option Bucket} {tr : Run} (hInv : InvO L o)
    (hok : trainRunStep env run all_cses tt L pad off thr ct lc lw rf rs o tr =
      .ok o2) : InvO L o2 := by
  simp only [trainRunStep, Bind.bind, Except.bind] at hok
  split at hok
  case isTrue h1 =>
    cases hst : (env.t2p tr).cses.foldlM
        (stimCsStep (env.t2p tr) ((env.t2p tr).trace tt) all_cses ct lc lw off L) o with
    | error e =>
        rw [hst] at hok
        exact Except.noConfusion hok
    | ok o1 =>
        rw [hst] at hok
        have hInv1 : InvO L o1 := foldlM_ok_preserve (InvO L) _
          (fun b a b2 hb hf => stimCsStep_inv hb hf) _ o o1 hInv hst
        simp only [] at hok
        split at hok
        · split at hok
          · exact foldlM_ok_preserve (InvO L) _
              (fun b a b2 hb hf => othersOtStep_inv hb hf) _ o1 o2 hInv1 hok
          · cases hok
            exact hInv1
        · cases hok
          exact hInv1
  case isFalse h1 =>
    split at hok
    · split at hok
      · exact foldlM_ok_preserve (InvO L) _
          (fun b a b2 hb hf => othersOtStep_inv hb hf) _ o o2 hInv hok
      · cases hok
        exact hInv
    · cases hok
      exact hInv

theorem mem_of_npRandomChoice {ws v2 : List Win} {k : Nat} {sel : List Nat}
    (hok : npRandomChoice ws k sel = .ok v2) : ∀ w ∈ v2, w ∈ ws := by
  unfold npRandomChoice at hok
  split at hok
  · exact Except.noConfusion hok
  · split at hok
    case isTrue hcond =>
      cases hok
      intro w hw
      rcases List.mem_map.mp hw with ⟨i, hi, hwi⟩
      have hilt : i < ws.length := by
        have := hcond.2.2
        rw [List.all_eq_true] at this
        simpa using this i hi
      have hgd : ws.getD i [] = ws[i] := by
        rw [List.getD_eq_getElem?_getD, List.getElem?_eq_getElem hilt]
        rfl
      rw [← hwi, hgd]
      exact List.getElem_mem hilt
    case isFalse => exact Except.noConfusion hok

theorem capCsStep_good {L : Nat} {mno : Int} {sel : String → List Nat}
    {d d2 : Bucket} {cs : String} (h : GoodB L d)
    (hok : capCsStep mno sel d cs = .ok d2) : GoodB L d2 := by
  simp only [capCsStep] at hok
  split at hok
  · split at hok
    · cases hch : npRandomChoice ((dFind d cs).getD []) mno.toNat (sel cs) with
      | error e =>
          rw [hch] at hok
          exact Except.noConfusion hok
      | ok v2 =>
          rw [hch] at hok
          simp only [Bind.bind, Except.bind] at hok
          cases hok
          apply GoodB_dSet h
          intro w hw
          have hmem := mem_of_npRandomChoice hch w hw
          cases hf : dFind d cs with
          | none => rw [hf] at hmem; simp at hmem
          | some v =>
              rw [hf] at hmem
              exact dFind_goodWin h hf w hmem
    · cases hok
      exact h
  · cases hok
    exact h

/-- C1 (amended): for every bucket _get_traces returns, windows of classes
whose name does not contain other have exactly length_fr frames, while
windows of the other and other-running buckets (and those of
_get_run_onsets) are only bounded by length_fr and may be shorter, because
those appends perform no length check. -/
theorem c1_amended_window_lengths (env : Env) (choiceSel : String → List Nat)
    (run : Run) (runs running_runs : List Run)
    (all_cses : List (String × String)) (tt : String) (L : Nat)
    (pad : Int × Int) (off : Nat) (thr : ℚ) (ct : Bool) (lc : Int)
    (lw : Int × Int) (rf : ℚ) (mno : Int) (rs : Bool) (out : Bucket)
    (hok : _get_traces env choiceSel run runs running_runs all_cses tt L pad off
      thr ct lc lw rf mno rs = .ok out) :
    (∀ p ∈ out, ∀ w ∈ p.2,
        shape1 w ≤ L ∧ (¬ containsStr p.1 "other" → shape1 w = L)) ∧
    ∀ w ∈ _get_run_onsets env running_runs L pad thr off, shape1 w ≤ L := by
  refine ⟨?_, shape1_get_run_onsets_le env running_runs L pad thr off⟩
  have h0 : InvO L (if run ∈ running_runs then none
      else some [("other-running",
        _get_run_onsets env running_runs L pad thr off)]) := by
    split
    · intro d hd
      exact Option.noConfusion hd
    · intro d hd
      cases hd
      intro p hp
      rw [List.mem_singleton] at hp
      subst hp
      intro w hw
      exact ⟨shape1_get_run_onsets_le env running_runs L pad thr off w hw,
        fun hc => (hc containsStr_other_running).elim⟩
  simp only [_get_traces, Bind.bind, Except.bind] at hok
  cases hfold : runs.foldlM
      (trainRunStep env run all_cses tt L pad off thr ct lc lw rf rs)
      (if run ∈ running_runs then none
        else some [("other-running",
          _get_run_onsets env running_runs L pad thr off)]) with
  | error e =>
      rw [hfold] at hok
      exact Except.noConfusion hok
  | ok o =>
      rw [hfold] at hok
      have hInv : InvO L o := foldlM_ok_preserve (InvO L) _
        (fun b a b2 hb hf => trainRunStep_inv hb hf) _ _ o h0 hfold
      cases o with
      | none => exact Except.noConfusion hok
      | some d =>
          simp only [oGet] at hok
          have hd : GoodB L d := hInv d rfl
          split at hok
          · exact foldlM_ok_preserve (GoodB L) _
              (fun b a b2 hb hf => capCsStep_good hb hf) _ d out hd hok
          · cases hok
            exact hd

/-- A running-only run whose nocs onset sits close to the end of a ten-frame
trace, so that the offset window runs past the end. -/
def t2pC1 : Trace2P :=
  { trivT2P with
    trace := fun _ => [[1, 2, 3, 4, 5, 6, 7, 8, 9, 10]]
    nocs := fun _ _ _ => [7] }

/-- An environment for the C1 counterexample. -/
def envC1 : Env := { envRunning with t2p := fun _ => t2pC1 }

/-- Counterexample for C1 as stated: the bucket _get_traces returns retains a
window of only 2 frames in other-running although length_fr is 5, because
the running-run slices are never length-checked. -/
theorem c1_counterexample :
    _get_traces envC1 (fun _ => []) 99 [] [0] [] "deconvolved" 5 (0, 0) 1 4 false
      (-1) (-1, 0) (3 / 10) (-1) true =
      .ok [("other-running", [[[9, 10]]])] ∧
    shape1 [[(9 : ℚ), 10]] ≠ 5 := by decide

/-- Witness for C1 (amended) at the same concrete input. -/
theorem c1_witness :
    shape1 [[(9 : ℚ), 10]] ≤ 5 ∧
      (¬ containsStr "other-running" "other" → shape1 [[(9 : ℚ), 10]] = 5) :=
  (c1_amended_window_lengths envC1 (fun _ => []) 99 [] [0] [] "deconvolved" 5
    (0, 0) 1 4 false (-1) (-1, 0) (3 / 10) (-1) true
    [("other-running", [[[9, 10]]])] (by decide)).1
    ("other-running", [[[9, 10]]]) (by decide) [[9, 10]] (by decide)

/-! ## C6: spontaneous baseline and variance of _activity -/

theorem selectRowsNot_all_false : ∀ (m : Mat) (flags : List Bool),
    flags.length = m.length → (∀ b ∈ flags, b = false) →
    selectRowsNot m flags = m := by
  intro m
  induction m with
  | nil => intro flags h1 h2; simp [selectRowsNot]
  | cons r rest ih =>
      intro flags h1 h2
      cases flags with
      | nil => simp at h1
      | cons b bs =>
          have hb : b = false := h2 b (List.mem_cons_self b bs)
          subst hb
          have htail := ih bs (by simpa using h1)
            (fun x hx => h2 x (List.mem_cons_of_mem _ hx))
          simp only [selectRowsNot, List.zip_cons_cons, List.filterMap_cons] at htail ⊢
          simp only [Bool.false_eq_true, if_false]
          rw [htail]

theorem colNanMeans_isSome {m : Mat} (hm : m ≠ []) :
    ∀ x ∈ colNanMeans m, x.isSome := by
  intro x hx
  rcases List.mem_map.mp hx with ⟨j, hj, hxe⟩
  rw [List.mem_range] at hj
  cases m with
  | nil => exact absurd rfl hm
  | cons r rest =>
      subst hxe
      have hj2 : j < r.length := hj
      have hr : r.get? j = some (r.get ⟨j, hj2⟩) := List.get?_eq_get hj2
      simp only [colNanMean, meanQ, List.filterMap_cons, hr]
      simp

theorem npMedianO_of_some {l : List (Option ℚ)} (h1 : l ≠ [])
    (h2 : ∀ x ∈ l, x.isSome) :
    npMedianO l = some (npMedian (l.filterMap id)) := by
  unfold npMedianO
  rw [if_neg]
  simp only [Bool.or_eq_true, not_or]
  constructor
  · simpa [List.isEmpty_iff] using h1
  · rw [List.any_eq_true]
    rintro ⟨x, hx, hnone⟩
    have := h2 x hx
    simp [Option.isNone_iff_eq_none] at hnone
    subst hnone
    simp at this

theorem npStdO_of_some {sq : ℚ → ℚ} {l : List (Option ℚ)} (h1 : l ≠ [])
    (h2 : ∀ x ∈ l, x.isSome) :
    npStdO sq l = some (sq (meanSqDev (l.filterMap id))) := by
  unfold npStdO
  rw [if_neg]
  simp only [Bool.or_eq_true, not_or]
  constructor
  · simpa [List.isEmpty_iff] using h1
  · rw [List.any_eq_true]
    rintro ⟨x, hx, hnone⟩
    have := h2 x hx
    simp [Option.isNone_iff_eq_none] at hnone
    subst hnone
    simp at this

/-- C6 (amended): on a spontaneous run with a nonempty pool, no flagged
outlier cells, a nonnegative sigma factor and a nonnegative square-root
model, _activity returns baseline equal to the median of the pooled mean
population activity after outlier exclusion, scaled by the
baseline_activity factor, and a nonnegative variance (the std of the pooled
activity scaled by the sigma factor). -/
theorem c6_amended_spontaneous (env : Env) (sq : ℚ → ℚ) (run : Run)
    (act σ : ℚ) (rs : List Run)
    (hrs : spontRuns env run = some rs)
    (hpop : (spontPool env sq rs).1 ≠ [])
    (hshape : 0 < shape1 (spontPool env sq rs).1)
    (hlen : (spontPool env sq rs).2.length = (spontPool env sq rs).1.length)
    (hfalse : ∀ b ∈ (spontPool env sq rs).2, b = false)
    (hσ : 0 ≤ σ) (hsq : ∀ x, 0 ≤ sq x) :
    _activity env sq run act σ "deconvolved" =
      .ok (some (npMedian ((colNanMeans (selectRowsNot (spontPool env sq rs).1
              (spontPool env sq rs).2)).filterMap id) * act),
        some (sq (meanSqDev ((colNanMeans (selectRowsNot (spontPool env sq rs).1
              (spontPool env sq rs).2)).filterMap id)) * σ),
        some (spontPool env sq rs).2) ∧
    0 ≤ sq (meanSqDev ((colNanMeans (selectRowsNot (spontPool env sq rs).1
          (spontPool env sq rs).2)).filterMap id)) * σ := by
  have hsel : selectRowsNot (spontPool env sq rs).1 (spontPool env sq rs).2 =
      (spontPool env sq rs).1 :=
    selectRowsNot_all_false _ _ hlen hfalse
  have hrow_ne : colNanMeans (spontPool env sq rs).1 ≠ [] := by
    unfold colNanMeans
    simp only [ne_eq, List.map_eq_nil_iff, List.range_eq_nil]
    omega
  have hrow_some := colNanMeans_isSome hpop
  constructor
  · simp only [_activity, hrs]
    rw [if_neg (by simp)]
    simp only [spontResult, scaleActivity]
    rw [if_pos (List.length_pos_of_ne_nil hpop), hsel,
      npMedianO_of_some hrow_ne hrow_some, npStdO_of_some hrow_ne hrow_some]
    simp
  · rw [hsel]
    exact mul_nonneg (hsq _) hσ

/-- A spontaneous run with one cell of constant activity 1 over two inactive
frames. -/
def t2pC6 : Trace2P :=
  { trivT2P with trace := fun _ => [[1, 1]], inactivity := [true, true], ncells := 1 }

/-- An environment with a single spontaneous sated run pooling only itself. -/
def envC6 : Env where
  t2p := fun _ => t2pC6
  run_type := fun _ => "spontaneous"
  tags := fun _ => ["sated"]
  parent := fun _ => 0
  dateRuns := fun _ _ _ => [0]

/-- Counterexample for C6 as stated: at the _activity signature defaults
(baseline_activity = 0), the returned baseline is 0 although the median of
the pooled mean population activity after outlier exclusion is 1, because
the code multiplies the median by the baseline_activity scale factor before
returning it. -/
theorem c6_counterexample :
    _activity envC6 (fun _ => 0) 0 0 3 "deconvolved" =
      .ok (some 0, some 0, some [false]) ∧
    npMedian ((colNanMeans (selectRowsNot (spontPool envC6 (fun _ => 0) [0]).1
        (spontPool envC6 (fun _ => 0) [0]).2)).filterMap id) = 1 ∧
    (some (0 : ℚ) : Option ℚ) ≠ some 1 := by
  with_unfolding_all decide

/-- Witness for C6 (amended) at the same input with baseline_activity = 1. -/
theorem c6_witness :
    _activity envC6 (fun _ => 0) 0 1 3 "deconvolved" =
      .ok (some 1, some 0, some [false]) := by
  have h := c6_amended_spontaneous envC6 (fun _ => 0) 0 1 3 [0] (by decide)
    (by with_unfolding_all decide) (by with_unfolding_all decide)
    (by with_unfolding_all decide) (by with_unfolding_all decide) (by norm_num)
    (fun x => le_rfl)
  exact h.1.trans (by with_unfolding_all decide)

/-! ## C8: merging classes in classify_reactivations -/

theorem find?_map_update (d : List (String × List ℚ)) (k : String) (v : List ℚ) :
    ((d.map fun p => if p.1 = k then (k, v) else p).find? fun p => decide (p.1 = k))
      = ((d.find? fun p => decide (p.1 = k)).map fun _ => (k, v)) := by
  induction d with
  | nil => rfl
  | cons p rest ih =>
      by_cases hp : p.1 = k
      · rw [List.map_cons, if_pos hp,
          List.find?_cons_of_pos _ (by simp),
          List.find?_cons_of_pos _ (by simp [hp])]
        simp
      · rw [List.map_cons, if_neg hp,
          List.find?_cons_of_neg _ (by simp [hp]),
          List.find?_cons_of_neg _ (by simp [hp])]
        exact ih

theorem rFind_rSet_self (d : List (String × List ℚ)) (k : String) (v : List ℚ) :
    rFind (rSet d k v) k = some v := by
  unfold rSet
  split
  case isTrue h =>
    unfold rFind
    rw [find?_map_update]
    rw [List.any_eq_true] at h
    obtain ⟨q, hq, hqk⟩ := h
    cases hf : d.find? fun p => decide (p.1 = k) with
    | none =>
        have hs : ((d.find? fun p => decide (p.1 = k)).isSome) = true := by
          rw [List.find?_isSome]
          exact ⟨q, hq, hqk⟩
        rw [hf] at hs
        simp at hs
    | some q2 => simp
  case isFalse h =>
    unfold rFind
    rw [List.find?_append]
    have hnone : (d.find? fun p => decide (p.1 = k)) = none := by
      cases hf : d.find? fun p => decide (p.1 = k) with
      | none => rfl
      | some q2 =>
          exfalso
          apply h
          rw [List.any_eq_true]
          refine ⟨q2, List.mem_of_find?_eq_some hf, ?_⟩
          have hq2 := List.find?_some hf
          simpa using hq2
    rw [hnone, List.find?_cons_of_pos _ (by simp)]
    rfl

theorem rFind_not_mem_keys {d : List (String × List ℚ)} {k : String}
    (h : k ∉ d.map Prod.fst) : rFind d k = none := by
  induction d with
  | nil => rfl
  | cons p rest ih =>
      rw [List.map_cons] at h
      unfold rFind
      rw [List.find?_cons_of_neg _ (by
        simp only [decide_eq_true_eq]
        intro hc
        exact h (by simp [hc]))]
      exact ih fun hc => h (List.mem_cons_of_mem _ hc)

theorem rFind_rPop_ne {d : List (String × List ℚ)} {k k2 : String}
    (h : k2 ≠ k) : rFind (rPop d k) k2 = rFind d k2 := by
  induction d with
  | nil => rfl
  | cons p rest ih =>
      by_cases hp : p.1 = k
      · unfold rPop
        rw [List.eraseP_cons_of_pos (by simp [hp])]
        unfold rFind
        rw [List.find?_cons_of_neg _ (by simp [hp, Ne.symm h])]
      · unfold rPop
        rw [List.eraseP_cons_of_neg (by simp [hp])]
        unfold rFind at ih ⊢
        by_cases hp2 : p.1 = k2
        · rw [List.find?_cons_of_pos _ (by simp [hp2]),
            List.find?_cons_of_pos _ (by simp [hp2])]
        · rw [List.find?_cons_of_neg _ (by simp [hp2]),
            List.find?_cons_of_neg _ (by simp [hp2])]
          exact ih

theorem rFind_rPop_self {d : List (String × List ℚ)} {k : String}
    (hnd : (d.map Prod.fst).Nodup) : rFind (rPop d k) k = none := by
  induction d with
  | nil => rfl
  | cons p rest ih =>
      rw [List.map_cons, List.nodup_cons] at hnd
      by_cases hp : p.1 = k
      · unfold rPop
        rw [List.eraseP_cons_of_pos (by simp [hp])]
        apply rFind_not_mem_keys
        rw [← hp]
        exact hnd.1
      · unfold rPop
        rw [List.eraseP_cons_of_neg (by simp [hp])]
        unfold rFind
        rw [List.find?_cons_of_neg _ (by simp [hp])]
        exact ih hnd.2

theorem keys_rSet_nodup {d : List (String × List ℚ)} {k : String}
    {v : List ℚ} (hnd : (d.map Prod.fst).Nodup) :
    ((rSet d k v).map Prod.fst).Nodup := by
  unfold rSet
  split
  case isTrue h =>
    have hkeys : (d.map fun p => if p.1 = k then (k, v) else p).map Prod.fst =
        d.map Prod.fst := by
      rw [List.map_map]
      apply List.map_congr_left
      intro p hp
      by_cases hpk : p.1 = k
      · simp [hpk]
      · simp [hpk]
    rw [hkeys]
    exact hnd
  case isFalse h =>
    rw [List.map_append]
    have hk : k ∉ d.map Prod.fst := by
      intro hc
      apply h
      rw [List.any_eq_true]
      rcases List.mem_map.mp hc with ⟨p, hp, hpk⟩
      exact ⟨p, hp, by simp [hpk]⟩
    simp only [List.map_cons, List.map_nil]
    rw [List.nodup_append]
    refine ⟨hnd, List.nodup_singleton k, ?_⟩
    intro a ha hc
    rw [List.mem_singleton] at hc
    subst hc
    exact hk ha

/-- C8: for any successful classification with merge_cses = [A, B] whose
model comparison produced a results dict with duplicate-free keys holding
series a at A and b at B of equal length, the returned results hold the
elementwise sum of a and b at key A and no entry at key B. -/
theorem c8_merge_sums_into_first {π δ Λ μ : Type} (env : Env) (ao : AodeEnv π)
    (sq : ℚ → ℚ) (run : Run) (model : AODEModel π δ Λ μ) (params : Params)
    (nan_cells : Option (List Bool)) (replace_data : Option Mat)
    (replace_priors : Option (List (String × ℚ)))
    (replace_temporal_prior : Option (List ℚ))
    (replace_integrate_frames : Option Nat) (d : List (String × List ℚ))
    (a b : List ℚ) (outp : ClassifyOut π Λ μ)
    (hm : ∀ x y z, (model.compare x y z).1 = d)
    (hA : rFind d "A" = some a) (hB : rFind d "B" = some b)
    (hlen : a.length = b.length) (hnd : (d.map Prod.fst).Nodup)
    (hok : classify_reactivations env ao sq run model params nan_cells
      (some ["A", "B"]) replace_data replace_priors replace_temporal_prior
      replace_integrate_frames = .ok outp) :
    rFind outp.results "A" = some (List.zipWith (· + ·) a b) ∧
    rFind outp.results "B" = none := by
  have hmr : mergeResults ["A", "B"] d =
      .ok (rPop (rSet d "A" (List.zipWith (· + ·) a b)) "B") := by
    simp only [mergeResults, List.foldlM_cons, List.foldlM_nil, mergeStep,
      hA, hB, npAddSeries, Bind.bind, Except.bind]
    rw [if_pos hlen]
    rfl
  simp only [classify_reactivations, Option.getD, Bind.bind, Except.bind] at hok
  cases hfr : classifyFront env ao sq run model.classnames params nan_cells
      replace_data replace_priors replace_temporal_prior
      replace_integrate_frames with
  | error e =>
      rw [hfr] at hok
      exact Except.noConfusion hok
  | ok front =>
      rw [hfr] at hok
      simp only [hm, hmr] at hok
      cases hok
      refine ⟨?_, ?_⟩
      · show rFind (rPop (rSet d "A" (List.zipWith (· + ·) a b)) "B") "A" = _
        rw [rFind_rPop_ne (by decide), rFind_rSet_self]
      · show rFind (rPop (rSet d "A" (List.zipWith (· + ·) a b)) "B") "B" = none
        exact rFind_rPop_self (keys_rSet_nodup hnd)

/-- A concrete parameter set for the C8 witness, with temporal priors and
stimulus removal disabled. -/
def paramsW : Params where
  trace_type := "deconvolved"
  remove_stim := false
  classification_ms := 0
  temporal_dependent_priors := false
  temporal_prior_baseline_activity := 0
  temporal_prior_baseline_sigma := 3
  temporal_prior_fwhm_frames := 0
  probability := []
  analog_comparison_multiplier := 1
  classification_frames := 1

/-- A model whose comparison always produces series A = [1] and B = [2]. -/
def modelW : AODEModel Unit Unit Unit Unit where
  classnames := []
  compare := fun _ _ _ => ([("A", [1]), ("B", [2])], (), ())
  marginal := ()

/-- A trivial aode environment for the witness. -/
def aoW : AodeEnv Unit where
  temporal_prior := fun _ _ _ _ _ => []
  assign_temporal_priors := fun _ _ _ => ()

/-- The output bundle the witness classification produces. -/
def outW : ClassifyOut Unit Unit Unit :=
  { parameters := paramsW, results := [("A", [3])], likelihood := (),
    marginal := (), priors := (), cell_mask := [] }

/-- Witness for C8 at a concrete input. -/
theorem c8_witness :
    classify_reactivations envRunning aoW (fun _ => 0) 0 modelW paramsW
      (some []) (some ["A", "B"]) none none none none = .ok outW ∧
    rFind outW.results "A" = some [3] ∧ rFind outW.results "B" = none := by
  have hok : classify_reactivations envRunning aoW (fun _ => 0) 0 modelW paramsW
      (some []) (some ["A", "B"]) none none none none = .ok outW := by
    with_unfolding_all decide
  have h := c8_merge_sums_into_first envRunning aoW (fun _ => 0) 0 modelW
    paramsW (some []) none none none none [("A", [1]), ("B", [2])] [1] [2] outW
    (fun x y z => rfl) (by decide) (by decide) (by decide) (by decide) hok
  have hsum : List.zipWith (· + ·) [(1 : ℚ)] [2] = [3] := by norm_num
  exact ⟨hok, by rw [← hsum]; exact h.1, h.2⟩
